import Mathlib

/-!
Verification of the unit-parsing and plot-rendering core of
`src/topobank/static/js/project.js` (TopoBank's client-side plotting helper).

The JavaScript functions `split_unit`, `unicode_superscript`, `unicode_unit`
and the data-processing core of `render_plot` are embedded as executable Lean
definitions. Modelling conventions:

* JavaScript strings are `String` (iteration with `for (c of s)` walks code
  points, matching `String.data`; the superscript glyphs involved are all in
  the BMP, so `split('')` in `unicode_superscript` agrees with code-point
  iteration because surrogate halves never match the lookup table and are
  re-joined unchanged).
* A possibly-`undefined` string is `Option String`; JavaScript string
  truthiness (`undefined` and `""` are falsy) is the `truthy` predicate.
* JavaScript numbers are idealised: integers are `Int` (exact decimal
  rendering; the double rounding above 2^53 and the exponential notation of
  `String(e)` above 1e21 are outside the model), data values and scale
  factors are `ℚ`, and `NaN` is modelled by `none` in `Option Int` /
  `Option ℚ` (`parseInt` of a digit-free string is `NaN`, and `NaN`
  contaminates every product and power it enters).
* Fallible code (`throw TypeError(...)`) returns `Except RenderError`; the
  two distinct throw sites of `render_plot` and the throw of the external
  `convert` library become the three constructors of `RenderError`.
* The external `convert(1).from(a).to(b)` lookup is an explicit function
  parameter `conv : Option String → Option String → Option ℚ` (`none` =
  conversion error).
-/

namespace Topobank

/-- The `superscript_dict` of `split_unit` (project.js lines 35-49): maps a
unicode superscript glyph to its ASCII equivalent, `none` for every other
character (the JS code tests `c in superscript_dict`; single-character keys
never collide with inherited `Object.prototype` properties). -/
def fromSup : Char → Option Char
  | '⁰' => some '0'
  | '¹' => some '1'
  | '²' => some '2'
  | '³' => some '3'
  | '⁴' => some '4'
  | '⁵' => some '5'
  | '⁶' => some '6'
  | '⁷' => some '7'
  | '⁸' => some '8'
  | '⁹' => some '9'
  | '⁺' => some '+'
  | '⁻' => some '-'
  | '⋅' => some '.'
  | _ => none

/-- The `superscript_dict` of `unicode_superscript` (project.js lines 73-87):
maps an ASCII digit, sign or period to its superscript glyph. -/
def toSup : Char → Option Char
  | '0' => some '⁰'
  | '1' => some '¹'
  | '2' => some '²'
  | '3' => some '³'
  | '4' => some '⁴'
  | '5' => some '⁵'
  | '6' => some '⁶'
  | '7' => some '⁷'
  | '8' => some '⁸'
  | '9' => some '⁹'
  | '+' => some '⁺'
  | '-' => some '⁻'
  | '.' => some '⋅'
  | _ => none

/-- One character of `unicode_superscript`'s map:
`c in superscript_dict ? superscript_dict[c] : c`. -/
def supMap (c : Char) : Char := (toSup c).getD c

/-- `unicode_superscript` (project.js lines 72-89): convert every digit, sign
and period in the string to its unicode superscript, leave other characters
alone. -/
def unicode_superscript (s : String) : String := String.mk (s.data.map supMap)

/-- The accumulation loop of `split_unit` (project.js lines 54-61): split the
characters into the unit buffer (characters not in `superscript_dict`) and
the exponent buffer (the ASCII translation of superscript glyphs), each in
input order.  The JS loop appends to two growing buffers left to right;
prepending the head's contribution to the recursive result builds the same
two in-order buffers. -/
def split_unit_core : List Char → List Char × List Char
  | [] => ([], [])
  | c :: rest =>
    let p := split_unit_core rest
    match fromSup c with
    | some d => (p.1, d :: p.2)
    | none => (c :: p.1, p.2)

/-- Leading decimal-digit characters of a list. -/
def leadingDigits (l : List Char) : List Char := l.takeWhile fun c => c.isDigit

/-- Value of a list of decimal digit characters, most significant first. -/
def digitsToNat (l : List Char) : Nat := l.foldl (fun a c => 10 * a + (c.toNat - 48)) 0

/-- The unsigned part of JavaScript `parseInt`: `none` (NaN) unless the list
starts with a digit, otherwise the value of the maximal digit run. -/
def leadingNat : List Char → Option Nat
  | [] => none
  | c :: rest => if c.isDigit then some (digitsToNat (leadingDigits (c :: rest))) else none

/-- JavaScript `parseInt` (radix 10) restricted to the character set that
`split_unit`'s exponent buffer can contain (digits, `+`, `-`, `.`): an
optional single leading sign, then the maximal leading digit run; `none`
models `NaN` (no digit where one is required).  `parseInt` stops at the
first character it cannot use, so `"2.5"` parses as `2` and `"."` is NaN. -/
def parseIntJS : List Char → Option Int
  | [] => none
  | c :: rest =>
    if c = '-' then (leadingNat rest).map fun n => -Int.ofNat n
    else if c = '+' then (leadingNat rest).map fun n => Int.ofNat n
    else (leadingNat (c :: rest)).map fun n => Int.ofNat n

/-- Result of `split_unit`: `unit` is `none` exactly when the JS function
returns `unit: undefined`; `exponent` is `none` when the JS function returns
`NaN` (`parseInt` of a digit-free exponent buffer). -/
structure ParsedUnit where
  unit : Option String
  exponent : Option Int
deriving DecidableEq, Repr

/-- `split_unit` (project.js lines 27-66): empty or absent input yields
`{unit: undefined, exponent: 1}`; otherwise the characters are split by
`split_unit_core` and the exponent buffer is fed to `parseInt` when
non-empty (an absent exponent means power 1). -/
def split_unit (s : Option String) : ParsedUnit :=
  match s with
  | none => ⟨none, some 1⟩
  | some str =>
    if str = "" then ⟨none, some 1⟩
    else
      let p := split_unit_core str.data
      ⟨some (String.mk p.1), if p.2.isEmpty then some 1 else parseIntJS p.2⟩

/-- Decimal digit characters of a natural number, most significant first,
with explicit fuel (`fuel > n` always suffices); structural recursion keeps
the definition kernel-reducible. -/
def natToCharsGo : Nat → Nat → List Char
  | 0, _ => []
  | fuel + 1, n =>
    if n < 10 then [Char.ofNat (48 + n)]
    else natToCharsGo fuel (n / 10) ++ [Char.ofNat (48 + n % 10)]

/-- Decimal digit characters of a natural number, most significant first
(the rendering `String(n)` uses for an integral JS number). -/
def natToChars (n : Nat) : List Char := natToCharsGo (n + 1) n

/-- Decimal rendering of an integer, `String(e)` for an integral JS number. -/
def intToChars (e : Int) : List Char :=
  if e < 0 then '-' :: natToChars e.natAbs else natToChars e.natAbs

/-- `String(e)` as a Lean string. -/
def intToStr (e : Int) : String := String.mk (intToChars e)

/-- `unicode_unit` (project.js lines 96-103): exponent 1 returns the unit
unchanged; otherwise the whole concatenation `unit + exponent` is passed
through `unicode_superscript` (so digit/sign/period characters inside the
unit itself are converted as well). -/
def unicode_unit (u : String) (e : Int) : String :=
  if e = 1 then u else unicode_superscript (u ++ intToStr e)

/-! ### The render pipeline (`render_plot`, project.js lines 111-301)

Only the data path is embedded: unit checking and resolution, scale-factor
computation, style-string parsing and the construction of the line/scatter
primitives with their data points and colours.  The purely graphical objects
(`Plottable` scales, axes, labels, legend, the DOM element) carry no data
the claims speak about and are omitted. -/

/-- One entry of a descriptor's `series` array: name, data arrays, optional
style string. -/
structure SeriesDescriptor where
  name : String
  x : List ℚ
  y : List ℚ
  style : Option String
deriving DecidableEq, Repr

/-- One plot descriptor as the server reports it (`plot_descr`). -/
structure PlotDescr where
  xlabel : String
  ylabel : String
  xunit : Option String
  yunit : Option String
  xscale : String
  yscale : String
  series : List SeriesDescriptor
deriving DecidableEq, Repr

/-- The failure modes of `render_plot`: the two `throw TypeError` sites of
project.js (lines 141 and 233) and the throw of the external `convert`
library when no conversion path exists. -/
inductive RenderError where
  | unitMismatch
  | unconvertible
  | styleParse (style : String)
deriving DecidableEq, Repr

/-- How a primitive is coloured: a fixed colour from the style string, or
the categorical colour scale keyed by the series name. -/
inductive ColorSpec where
  | fixed (color : String)
  | scale (name : String)
deriving DecidableEq, Repr

/-- An output plot primitive: the `Plottable.Plots.Line` or
`Plottable.Plots.Scatter` built for one series, reduced to its data.  A
point coordinate is `none` when the JS computation produces `NaN`. -/
inductive Primitive where
  | line (points : List (Option ℚ × Option ℚ)) (color : ColorSpec)
  | symbol (points : List (Option ℚ × Option ℚ)) (shape : String) (color : ColorSpec)
deriving DecidableEq, Repr

/-- The data points a primitive carries. -/
def Primitive.points : Primitive → List (Option ℚ × Option ℚ)
  | .line ps _ => ps
  | .symbol ps _ _ => ps

/-- `color_abbreviations` (project.js lines 113-116). -/
def color_abbreviations : Char → Option String
  | 'k' => some "black"
  | 'r' => some "red"
  | _ => none

/-- `symbol_factories` (project.js lines 117-124), each factory reduced to
the name of the shape it draws. -/
def symbol_factories : Char → Option String
  | 'o' => some "circle"
  | '+' => some "cross"
  | 'd' => some "diamond"
  | 's' => some "square"
  | '^' => some "triangle"
  | 'y' => some "wye"
  | _ => none

/-- The three style flags accumulated by the loop over a style string
(project.js lines 219-235): `line`, `color`, `symbol`. -/
structure StyleState where
  line : Bool
  color : Option String
  symbol : Option String
deriving DecidableEq, Repr

/-- One character of the style loop: `-` switches the line on, a colour
code sets the colour, a symbol code sets the marker, anything else throws
(`none` here). -/
def style_step (st : StyleState) (c : Char) : Option StyleState :=
  if c = '-' then some { st with line := true }
  else
    match color_abbreviations c with
    | some col => some { st with color := some col }
    | none =>
      match symbol_factories c with
      | some sh => some { st with symbol := some sh }
      | none => none

/-- The full style loop: fold `style_step` over the characters, turning an
unrecognised character into the `TypeError` of project.js line 233 (which
carries the style string). -/
def parse_style (style : String) : Except RenderError StyleState :=
  match style.data.foldlM style_step ⟨false, none, none⟩ with
  | some st => .ok st
  | none => .error (.styleParse style)

/-- JavaScript string truthiness: `undefined` and `""` are falsy. -/
def truthy : Option String → Bool
  | none => false
  | some str => if str = "" then false else true

/-- `item.style ? item.style : 'k-'` (project.js line 212): an absent or
empty style string falls back to `"k-"`. -/
def effective_style : Option String → String
  | none => "k-"
  | some str => if str = "" then "k-" else str

/-- The dataset construction of project.js lines 214-217: map over `item.y`
with index into `item.x`; a missing x entry or a `NaN` scale factor makes
the coordinate `NaN`. -/
def scaled_points_go (sfx sfy : Option ℚ) (x : List ℚ) : Nat → List ℚ → List (Option ℚ × Option ℚ)
  | _, [] => []
  | i, v :: rest =>
    ((x.get? i).bind fun xv => sfx.map fun f => f * xv, sfy.map fun f => f * v)
      :: scaled_points_go sfx sfy x (i + 1) rest

/-- The scaled dataset of one series. -/
def scaled_points (sfx sfy : Option ℚ) (item : SeriesDescriptor) : List (Option ℚ × Option ℚ) :=
  scaled_points_go sfx sfy item.x 0 item.y

/-- The colour attached to a series' primitives (project.js lines 247-252
and 268-273): the fixed style colour when one was parsed, otherwise the
colour scale keyed by the series name. -/
def series_color (st : StyleState) (item : SeriesDescriptor) : ColorSpec :=
  match st.color with
  | some c => .fixed c
  | none => .scale item.name

/-- Processing of one series (project.js lines 211-278): parse the effective
style, then emit a line primitive if `-` was seen and a symbol primitive if
a marker was seen, in that order, both over the scaled dataset. -/
def processSeries (sfx sfy : Option ℚ) (item : SeriesDescriptor) : Except RenderError (List Primitive) :=
  match parse_style (effective_style item.style) with
  | .error e => .error e
  | .ok st =>
    .ok ((if st.line then [Primitive.line (scaled_points sfx sfy item) (series_color st item)] else []) ++
      (match st.symbol with
       | some sh => [Primitive.symbol (scaled_points sfx sfy item) sh (series_color st item)]
       | none => []))

/-- A sequential effectful map: the `forEach` loop that stops at the first
thrown error. -/
def mapExcept {ε α β : Type} (f : α → Except ε β) : List α → Except ε (List β)
  | [] => .ok []
  | a :: rest =>
    match f a with
    | .error e => .error e
    | .ok b =>
      match mapExcept f rest with
      | .error e => .error e
      | .ok bs => .ok (b :: bs)

/-- `scale_factor ** exponent` where the exponent may be `NaN`. -/
def jsPow (r : ℚ) (e : Option Int) : Option ℚ := e.map fun n => r ^ n

/-- `if (!unit) unit = xunit.unit` (project.js line 146). -/
def unit_step (unit base : Option String) : Option String :=
  if truthy unit then unit else base

/-- The scale-factor block of the descriptor loop (project.js lines
150-155): when a display unit exists, the conversion ratio from the base
x-unit to it, raised to the x- and y-exponents respectively; factors 1 when
the display unit is still falsy; a failed conversion throws. -/
def descr_scale_factors (conv : Option String → Option String → Option ℚ)
    (u2 : Option String) (xu yu : ParsedUnit) :
    Except RenderError (Option ℚ × Option ℚ) :=
  if truthy u2 then
    match conv xu.unit u2 with
    | none => .error .unconvertible
    | some r => .ok (jsPow r xu.exponent, jsPow r yu.exponent)
  else .ok (some 1, some 1)

/-- One iteration of the descriptor loop of `render_plot` (project.js lines
135-279): check that the parsed base units of `xunit` and `yunit` agree
(line 140), default the display unit to this descriptor's base x-unit if it
is still falsy (line 146), compute the scale factors, then process every
series.  Returns the possibly-updated display unit and the primitives of
this descriptor. -/
def processDescr (conv : Option String → Option String → Option ℚ)
    (unit : Option String) (d : PlotDescr) :
    Except RenderError (Option String × List Primitive) :=
  let xu := split_unit d.xunit
  let yu := split_unit d.yunit
  if xu.unit ≠ yu.unit then .error .unitMismatch
  else
    let u2 := unit_step unit xu.unit
    match descr_scale_factors conv u2 xu yu with
    | .error e => .error e
    | .ok (sfx, sfy) =>
      match mapExcept (processSeries sfx sfy) d.series with
      | .error e => .error e
      | .ok pss => .ok (u2, pss.flatten)

/-- The descriptor loop of `render_plot`, with the mutable `unit` variable
threaded through; returns the final display unit and the primitives of all
descriptors in input order. -/
def render_plot (conv : Option String → Option String → Option ℚ) :
    List PlotDescr → Option String → Except RenderError (Option String × List Primitive)
  | [], unit => .ok (unit, [])
  | d :: rest, unit =>
    match processDescr conv unit d with
    | .error e => .error e
    | .ok (u1, ps) =>
      match render_plot conv rest u1 with
      | .error e => .error e
      | .ok (uf, ps2) => .ok (uf, ps ++ ps2)

/-! ### Statement-level helpers and concrete example inputs -/

/-- A style character the loop recognises: `-`, a colour code, or a symbol
code. -/
def recognized_style_char (c : Char) : Bool :=
  (c == '-') || (color_abbreviations c).isSome || (symbol_factories c).isSome

/-- Number of line primitives in a list. -/
def countLinePrims (l : List Primitive) : Nat :=
  l.countP fun p => match p with | .line _ _ => true | _ => false

/-- Number of symbol primitives in a list. -/
def countSymbolPrims (l : List Primitive) : Nat :=
  l.countP fun p => match p with | .symbol _ _ _ => true | _ => false

/-- The dataset of a series written without the scale multiplications: the
coordinates exactly as the series carries them. -/
def unscaled_points_go (x : List ℚ) : Nat → List ℚ → List (Option ℚ × Option ℚ)
  | _, [] => []
  | i, v :: rest => (x.get? i, some v) :: unscaled_points_go x (i + 1) rest

/-- The unscaled dataset of one series. -/
def unscaled_points (item : SeriesDescriptor) : List (Option ℚ × Option ℚ) :=
  unscaled_points_go item.x 0 item.y

/-- The evolution of the `unit` variable over a whole render call: each
descriptor replaces a falsy unit by its own base x-unit. -/
def unit_fold (u0 : Option String) (ds : List PlotDescr) : Option String :=
  ds.foldl (fun u d => unit_step u (split_unit d.xunit).unit) u0

/-- A conversion lookup with no conversion paths at all. -/
def convNone : Option String → Option String → Option ℚ := fun _ _ => none

/-- A conversion lookup that converts anything to anything with ratio 2. -/
def convTwo : Option String → Option String → Option ℚ := fun _ _ => some 2

/-- A series styled `"ko"` with one point `(1, 2)`. -/
def itemKo : SeriesDescriptor := ⟨"a", [1], [2], some "ko"⟩

/-- A series with an empty style string and one point `(1, 2)`. -/
def itemEmpty : SeriesDescriptor := ⟨"a", [1], [2], some ""⟩

/-- A unitless descriptor holding only `itemKo`. -/
def dKo : PlotDescr := ⟨"", "", none, none, "linear", "linear", [itemKo]⟩

/-- A unitless descriptor holding only `itemEmpty`. -/
def dEmpty : PlotDescr := ⟨"", "", none, none, "linear", "linear", [itemEmpty]⟩

/-- A unitless descriptor whose only series has the unrecognised style
`"z"`. -/
def dBadStyle : PlotDescr := ⟨"", "", none, none, "linear", "linear", [⟨"a", [], [], some "z"⟩]⟩

/-- A descriptor with mismatching base units (`m` versus `s`). -/
def dMis : PlotDescr := ⟨"", "", some "m", some "s", "linear", "linear", []⟩

/-- A descriptor with no units and no series. -/
def dNoUnit : PlotDescr := ⟨"", "", none, none, "linear", "linear", []⟩

/-- A descriptor in millimetres with no series. -/
def dMm : PlotDescr := ⟨"", "", some "mm", some "mm", "linear", "linear", []⟩

/-- A descriptor whose units are the empty string and with no series. -/
def dEmptyUnit : PlotDescr := ⟨"", "", some "", some "", "linear", "linear", []⟩

/-- A line-styled series with one point `(3, 5)`. -/
def itemLine : SeriesDescriptor := ⟨"a", [3], [5], some "-"⟩

/-- A unitless descriptor holding only `itemLine`. -/
def dLine : PlotDescr := ⟨"", "", none, none, "linear", "linear", [itemLine]⟩

/-- A descriptor in metres holding only `itemLine`. -/
def dM : PlotDescr := ⟨"", "", some "m", some "m", "linear", "linear", [itemLine]⟩

/-- A character list begins with an integer in `parseInt`'s sense: a digit,
or a single sign followed by a digit.  `parseIntJS` returns an integer
exactly on such lists and `NaN` on all others. -/
def startsWithInt : List Char → Bool
  | [] => false
  | c :: rest =>
    if c = '-' ∨ c = '+' then
      match rest with
      | [] => false
      | d :: _ => d.isDigit
    else c.isDigit

/-! ### Facts about decimal digit characters -/

/-- A digit character superscripts and comes back unchanged. -/
theorem toSup_digit_bind : ∀ d, d < 10 →
    (toSup (Char.ofNat (48 + d))).bind fromSup = some (Char.ofNat (48 + d)) := by decide

/-- A digit character is not itself a superscript glyph. -/
theorem fromSup_digit : ∀ d, d < 10 → fromSup (Char.ofNat (48 + d)) = none := by decide

/-- A digit character is a decimal digit. -/
theorem isDigit_digit : ∀ d, d < 10 → (Char.ofNat (48 + d)).isDigit = true := by decide

/-- Code point of a digit character. -/
theorem toNat_digit : ∀ d, d < 10 → (Char.ofNat (48 + d)).toNat = 48 + d := by decide

/-- A digit character is neither sign. -/
theorem digit_ne_sign : ∀ d, d < 10 →
    Char.ofNat (48 + d) ≠ '-' ∧ Char.ofNat (48 + d) ≠ '+' := by decide

/-- Appending one character to a digit string shifts its value one decimal
place. -/
theorem digitsToNat_append (a : List Char) (c : Char) :
    digitsToNat (a ++ [c]) = 10 * digitsToNat a + (c.toNat - 48) := by
  simp [digitsToNat, List.foldl_append]

/-- With enough fuel, `natToCharsGo` renders a non-empty all-digit string
whose value is the number it was given. -/
theorem natToCharsGo_spec : ∀ fuel n, n < fuel →
    natToCharsGo fuel n ≠ [] ∧ digitsToNat (natToCharsGo fuel n) = n ∧
    ∀ c ∈ natToCharsGo fuel n, ∃ d, d < 10 ∧ c = Char.ofNat (48 + d) := by
  intro fuel
  induction fuel with
  | zero => intro n h; omega
  | succ fuel ih =>
    intro n h
    by_cases h10 : n < 10
    · refine ⟨by simp [natToCharsGo, h10], ?_, ?_⟩
      · simp only [natToCharsGo, if_pos h10, digitsToNat, List.foldl]
        rw [toNat_digit n h10]
        omega
      · intro c hc
        simp only [natToCharsGo, if_pos h10, List.mem_singleton] at hc
        exact ⟨n, h10, hc⟩
    · have hrec := ih (n / 10) (by omega)
      refine ⟨by simp [natToCharsGo, h10], ?_, ?_⟩
      · simp only [natToCharsGo, if_neg h10]
        rw [digitsToNat_append, hrec.2.1, toNat_digit (n % 10) (by omega)]
        omega
      · intro c hc
        simp only [natToCharsGo, if_neg h10, List.mem_append, List.mem_singleton] at hc
        rcases hc with hc | hc
        · exact hrec.2.2 c hc
        · exact ⟨n % 10, by omega, hc⟩

/-- The digit rendering of `n` is non-empty, all digits, and has value `n`. -/
theorem natToChars_spec (n : Nat) :
    natToChars n ≠ [] ∧ digitsToNat (natToChars n) = n ∧
    ∀ c ∈ natToChars n, ∃ d, d < 10 ∧ c = Char.ofNat (48 + d) :=
  natToCharsGo_spec (n + 1) n (Nat.lt_succ_self n)

/-- A predicate true on every element leaves `takeWhile` the identity. -/
theorem takeWhile_of_all (p : Char → Bool) :
    ∀ l : List Char, (∀ c ∈ l, p c = true) → l.takeWhile p = l := by
  intro l
  induction l with
  | nil => intro _; rfl
  | cons c rest ih =>
    intro h
    simp only [List.takeWhile, h c (List.mem_cons_self c rest)]
    rw [ih fun x hx => h x (List.mem_cons_of_mem c hx)]

/-- On a non-empty all-digit string, `leadingNat` reads the whole string. -/
theorem leadingNat_all_digits (l : List Char) (hne : l ≠ [])
    (h : ∀ c ∈ l, c.isDigit = true) : leadingNat l = some (digitsToNat l) := by
  cases l with
  | nil => exact absurd rfl hne
  | cons c rest =>
    simp only [leadingNat, if_pos (h c (List.mem_cons_self c rest))]
    rw [leadingDigits, takeWhile_of_all _ _ h]

/-- `parseInt` inverts the decimal rendering of an integer. -/
theorem parseIntJS_intToChars (e : Int) : parseIntJS (intToChars e) = some e := by
  have hnat := natToChars_spec e.natAbs
  have hdig : ∀ c ∈ natToChars e.natAbs, c.isDigit = true := by
    intro c hc
    obtain ⟨d, hd, rfl⟩ := hnat.2.2 c hc
    exact isDigit_digit d hd
  by_cases hneg : e < 0
  · rw [intToChars, if_pos hneg]
    show (leadingNat (natToChars e.natAbs)).map (fun n => -Int.ofNat n) = some e
    rw [leadingNat_all_digits _ hnat.1 hdig, hnat.2.1, Option.map_some']
    congr 1
    show -(e.natAbs : Int) = e
    omega
  · rw [intToChars, if_neg hneg]
    cases hrep : natToChars e.natAbs with
    | nil => exact absurd hrep hnat.1
    | cons c rest =>
      have hcmem : c ∈ natToChars e.natAbs := by rw [hrep]; exact List.mem_cons_self c rest
      obtain ⟨d, hd, hcd⟩ := hnat.2.2 c hcmem
      have hsig := digit_ne_sign d hd
      have h1 : ¬(c = '-') := by rw [hcd]; exact hsig.1
      have h2 : ¬(c = '+') := by rw [hcd]; exact hsig.2
      simp only [parseIntJS, if_neg h1, if_neg h2]
      rw [← hrep, leadingNat_all_digits _ hnat.1 hdig, hnat.2.1, Option.map_some']
      congr 1
      show (e.natAbs : Int) = e
      omega

/-! ### The split loop on plain and superscripted character runs -/

/-- A string is its character list. -/
theorem mk_data (s : String) : String.mk s.data = s := rfl

/-- Character list of a made-up string. -/
theorem data_mk (l : List Char) : (String.mk l).data = l := rfl

/-- The split loop distributes over concatenation, buffer by buffer. -/
theorem split_core_append (a b : List Char) :
    split_unit_core (a ++ b) =
      ((split_unit_core a).1 ++ (split_unit_core b).1,
       (split_unit_core a).2 ++ (split_unit_core b).2) := by
  induction a with
  | nil => simp [split_unit_core]
  | cons c rest ih =>
    simp only [List.cons_append, split_unit_core]
    cases fromSup c <;> simp [ih]

/-- Characters that are no superscript glyph all land in the unit buffer. -/
theorem split_core_unmapped (l : List Char) (h : ∀ c ∈ l, fromSup c = none) :
    split_unit_core l = (l, []) := by
  induction l with
  | nil => rfl
  | cons c rest ih =>
    simp only [split_unit_core, ih fun x hx => h x (List.mem_cons_of_mem c hx),
      h c (List.mem_cons_self c rest)]

/-- Superscripting a run of mappable characters and splitting recovers the
run in the exponent buffer. -/
theorem split_core_sup (l : List Char)
    (h : ∀ c ∈ l, (toSup c).bind fromSup = some c) :
    split_unit_core (l.map supMap) = ([], l) := by
  induction l with
  | nil => rfl
  | cons c rest ih =>
    have hc := h c (List.mem_cons_self c rest)
    cases hts : toSup c with
    | none => rw [hts] at hc; simp at hc
    | some d =>
      rw [hts] at hc
      simp only [Option.bind_eq_bind, Option.some_bind] at hc
      have hmap : supMap c = d := by rw [supMap, hts]; rfl
      simp only [List.map_cons, hmap, split_unit_core,
        ih fun x hx => h x (List.mem_cons_of_mem c hx), hc]

/-- `unicode_superscript` leaves a run without mappable characters alone. -/
theorem map_supMap_unmapped (l : List Char) (h : ∀ c ∈ l, toSup c = none) :
    l.map supMap = l := by
  induction l with
  | nil => rfl
  | cons c rest ih =>
    simp only [List.map_cons, supMap, h c (List.mem_cons_self c rest),
      Option.getD_none, ih fun x hx => h x (List.mem_cons_of_mem c hx)]

/-- Every character of a rendered integer (sign or digit) superscripts and
maps back to itself, and is itself no superscript glyph. -/
theorem intToChars_mappable (e : Int) : ∀ c ∈ intToChars e,
    (toSup c).bind fromSup = some c ∧ fromSup c = none := by
  intro c hc
  have hnat := natToChars_spec e.natAbs
  rw [intToChars] at hc
  by_cases hneg : e < 0
  · rw [if_pos hneg] at hc
    rcases List.mem_cons.mp hc with rfl | hc
    · exact ⟨by decide, by decide⟩
    · obtain ⟨d, hd, rfl⟩ := hnat.2.2 c hc
      exact ⟨toSup_digit_bind d hd, fromSup_digit d hd⟩
  · rw [if_neg hneg] at hc
    obtain ⟨d, hd, rfl⟩ := hnat.2.2 c hc
    exact ⟨toSup_digit_bind d hd, fromSup_digit d hd⟩

/-- A rendered integer has at least one character. -/
theorem intToChars_ne_nil (e : Int) : intToChars e ≠ [] := by
  rw [intToChars]
  by_cases hneg : e < 0
  · rw [if_pos hneg]; exact List.cons_ne_nil _ _
  · rw [if_neg hneg]; exact (natToChars_spec e.natAbs).1

/-- Unfolding `split_unit` on a non-empty string. -/
theorem split_unit_some (str : String) (hne : str ≠ "") :
    split_unit (some str) =
      ⟨some (String.mk (split_unit_core str.data).1),
       if (split_unit_core str.data).2.isEmpty then some 1
       else parseIntJS (split_unit_core str.data).2⟩ := by
  simp only [split_unit, if_neg hne]

/-! ### Claims C2 and C5: format/parse round trip and `unicode_unit` -/

/-- Claim C2, counterexample to the statement as given: the round trip
`split_unit (unicode_unit u e) = {unit: u, exponent: e}` fails for base-unit
strings without digits or superscript glyphs.  With `u = "-"` and `e = 2`
(a hyphen is neither a digit nor a superscript glyph) the hyphen itself is
superscripted by `unicode_unit` and read back as part of the exponent,
giving `{unit: "", exponent: -2}`; with `u = ""` and `e = 1` the formatted
string is empty, so `split_unit` returns `unit: undefined`, not `""`. -/
theorem split_unicode_roundtrip_cex :
    split_unit (some (unicode_unit "-" 2)) = ⟨some "", some (-2)⟩ ∧
    (⟨some "", some (-2)⟩ : ParsedUnit) ≠ ⟨some "-", some 2⟩ ∧
    split_unit (some (unicode_unit "" 1)) = ⟨none, some 1⟩ ∧
    (⟨none, some 1⟩ : ParsedUnit) ≠ ⟨some "", some 1⟩ :=
  ⟨by decide, by decide, by decide, by decide⟩

/-- Claim C2 (amended): for every non-empty base-unit string `u` whose
characters are neither superscript glyphs nor characters the superscript
encoder maps (digits, `+`, `-`, `.`), and every integer `e ≠ 0`, parsing the
formatted string round-trips:
`split_unit (unicode_unit u e) = {unit: u, exponent: e}`.  (The hypothesis
`e ≠ 0` is the claim's own; the proof does not need it.) -/
theorem split_unicode_roundtrip (u : String) (e : Int) (hu : u ≠ "")
    (hchars : ∀ c ∈ u.data, toSup c = none ∧ fromSup c = none) (_he : e ≠ 0) :
    split_unit (some (unicode_unit u e)) = ⟨some u, some e⟩ := by
  by_cases h1 : e = 1
  · subst h1
    rw [unicode_unit, if_pos rfl, split_unit_some u hu,
      split_core_unmapped u.data fun c hc => (hchars c hc).2]
    simp [mk_data]
  · have henc := intToChars_ne_nil e
    rw [unicode_unit, if_neg h1]
    have hdata : (u ++ intToStr e).data = u.data ++ intToChars e := by
      rw [String.data_append]; rfl
    rw [unicode_superscript, hdata, List.map_append,
      map_supMap_unmapped u.data fun c hc => (hchars c hc).1]
    have hne2 : String.mk (u.data ++ (intToChars e).map supMap) ≠ "" := by
      intro hcontra
      have hdat : u.data ++ (intToChars e).map supMap = [] :=
        congrArg String.data hcontra
      rcases List.append_eq_nil.mp hdat with ⟨-, hmapnil⟩
      exact henc (List.map_eq_nil_iff.mp hmapnil)
    rw [split_unit_some _ hne2]
    have hcore : split_unit_core (String.mk (u.data ++ (intToChars e).map supMap)).data
        = (u.data, intToChars e) := by
      rw [data_mk, split_core_append,
        split_core_unmapped u.data fun c hc => (hchars c hc).2,
        split_core_sup (intToChars e) fun c hc => (intToChars_mappable e c hc).1]
      simp
    rw [hcore]
    have hempty : (intToChars e).isEmpty = false := by
      cases h2 : intToChars e with
      | nil => exact absurd h2 henc
      | cons a l => rfl
    rw [hempty]
    simp only [Bool.false_eq_true, if_false, parseIntJS_intToChars, mk_data]

/-- Claim C2 witness: the amended round trip at `u = "µm"`, `e = 3` and at
`u = "m"`, `e = -2`. -/
theorem split_unicode_roundtrip_witness :
    split_unit (some (unicode_unit "µm" 3)) = ⟨some "µm", some 3⟩ ∧
    split_unit (some (unicode_unit "m" (-2))) = ⟨some "m", some (-2)⟩ :=
  ⟨split_unicode_roundtrip "µm" 3 (by decide) (by decide) (by decide),
   split_unicode_roundtrip "m" (-2) (by decide) (by decide) (by decide)⟩

/-- Claim C5, counterexample to the statement as given: `unicode_unit` does
not leave the characters of the unit itself unmodified — the whole
concatenation `unit + exponent` is superscripted, so a digit inside the unit
is converted too: `unicode_unit "m2" 3` is `"m²³"`, not `"m2" ++ "³"`. -/
theorem unicode_unit_cex :
    unicode_unit "m2" 3 = "m²³" ∧
    unicode_unit "m2" 3 ≠ "m2" ++ unicode_superscript (intToStr 3) ∧
    "m2" ++ unicode_superscript (intToStr 3) = "m2³" :=
  ⟨by decide, by decide, by decide⟩

/-- Claim C5 (amended): `unicode_unit u e` returns `u` unchanged when
`e = 1`; otherwise it returns `unicode_superscript (u ++ String(e))`, which
superscripts digit/sign/period characters inside `u` as well, and only when
`u` contains no such character does it equal `u` followed by the
superscript encoding of `e`'s sign and digits. -/
theorem unicode_unit_spec (u : String) (e : Int) :
    (e = 1 → unicode_unit u e = u) ∧
    (e ≠ 1 → unicode_unit u e = unicode_superscript (u ++ intToStr e)) ∧
    (e ≠ 1 → (∀ c ∈ u.data, toSup c = none) →
      unicode_unit u e = u ++ unicode_superscript (intToStr e)) := by
  refine ⟨fun h => by rw [unicode_unit, if_pos h], fun h => by rw [unicode_unit, if_neg h], ?_⟩
  intro h hchars
  rw [unicode_unit, if_neg h, unicode_superscript, unicode_superscript]
  show String.mk ((u ++ intToStr e).data.map supMap)
      = String.mk (u.data ++ ((intToStr e).data.map supMap))
  congr 1
  have hdata : (u ++ intToStr e).data = u.data ++ (intToStr e).data := String.data_append u _
  rw [hdata, List.map_append, map_supMap_unmapped u.data hchars]

/-- Claim C5 witness: the amended statement at `u = "m"`, `e = -2`, where it
gives `"m⁻²"`. -/
theorem unicode_unit_spec_witness :
    unicode_unit "m" (-2) = "m" ++ unicode_superscript (intToStr (-2)) ∧
    unicode_unit "m" (-2) = "m⁻²" :=
  ⟨(unicode_unit_spec "m" (-2)).2.2 (by decide) (by decide), by decide⟩

/-! ### Claim C8: the ParsedUnit invariant -/

/-- `leadingNat` on an empty list is `NaN`. -/
theorem leadingNat_nil : leadingNat [] = none := rfl

/-- `leadingNat` on a non-empty list is `NaN` exactly when the head is no
digit. -/
theorem leadingNat_cons_eq_none (c : Char) (rest : List Char) :
    leadingNat (c :: rest) = none ↔ c.isDigit = false := by
  cases hdig : c.isDigit <;> simp [leadingNat, hdig]

/-- `parseInt` is `NaN` exactly when the list does not begin with an
optionally signed digit. -/
theorem parseIntJS_eq_none_iff (l : List Char) :
    parseIntJS l = none ↔ startsWithInt l = false := by
  cases l with
  | nil => simp [parseIntJS, startsWithInt]
  | cons c rest =>
    by_cases h1 : c = '-'
    · subst h1
      cases rest with
      | nil => simp [parseIntJS, startsWithInt, leadingNat_nil]
      | cons d l2 => simp [parseIntJS, startsWithInt, leadingNat_cons_eq_none]
    · by_cases h2 : c = '+'
      · subst h2
        cases rest with
        | nil => simp [parseIntJS, startsWithInt, h1, leadingNat_nil]
        | cons d l2 => simp [parseIntJS, startsWithInt, h1, leadingNat_cons_eq_none]
      · have hor : ¬(c = '-' ∨ c = '+') := fun hc => hc.elim h1 h2
        simp [parseIntJS, startsWithInt, h1, h2, hor, leadingNat_cons_eq_none]

/-- Claim C8, counterexample to the statement as given: the exponent field
is not always an integer.  An input consisting of a stray superscript
decimal point (or a stray superscript sign) gives an exponent buffer with no
digits, and `parseInt` of it is `NaN` (modelled `none`), not an integer. -/
theorem split_unit_invariant_cex :
    (split_unit (some "⋅")).exponent = none ∧
    (split_unit (some "⁻")).exponent = none ∧
    (split_unit (some "⋅")).unit = some "" :=
  ⟨by decide, by decide, by decide⟩

/-- Claim C8 (amended): for every input, `unit` is `undefined` exactly when
the input is empty or absent, and then the exponent is 1; the exponent is an
integer in every case except when the accumulated superscript run is
non-empty and does not begin with an optionally signed digit (stray sign or
decimal-point glyphs only), in which case it is `NaN`. -/
theorem split_unit_invariant (s : Option String) :
    ((split_unit s).unit = none ↔ s = none ∨ s = some "") ∧
    (s = none ∨ s = some "" → (split_unit s).exponent = some 1) ∧
    ((split_unit s).exponent = none ↔
      ∃ str, s = some str ∧ str ≠ "" ∧ (split_unit_core str.data).2 ≠ [] ∧
        startsWithInt (split_unit_core str.data).2 = false) := by
  cases s with
  | none =>
    refine ⟨by simp [split_unit], fun _ => rfl, ?_⟩
    simp [split_unit]
  | some str =>
    by_cases hne : str = ""
    · subst hne
      refine ⟨by simp [split_unit], fun _ => rfl, ?_⟩
      simp [split_unit]
    · rw [split_unit_some str hne]
      refine ⟨by simp [hne], fun h => ?_, ?_⟩
      · rcases h with h | h
        · exact absurd h (by simp)
        · exact absurd (Option.some.inj h) hne
      · by_cases hrun : (split_unit_core str.data).2.isEmpty = true
        · simp only [hrun, if_true]
          constructor
          · intro h; exact absurd h (by simp)
          · rintro ⟨str2, hstr2, -, hrun2, -⟩
            rw [Option.some.inj hstr2] at hrun
            exact (hrun2 (List.isEmpty_iff.mp hrun)).elim
        · simp only [Bool.not_eq_true] at hrun
          simp only [hrun, Bool.false_eq_true, if_false]
          rw [parseIntJS_eq_none_iff]
          constructor
          · intro h
            exact ⟨str, rfl, hne, by
              intro hnil
              rw [hnil] at hrun
              exact absurd hrun (by simp), h⟩
          · rintro ⟨str2, hstr2, -, -, h⟩
            rwa [← Option.some.inj hstr2] at h

/-! ### Helper lemmas about the render pipeline -/

/-- Scale factors 1 leave every coordinate unchanged. -/
theorem scaled_points_go_one (x : List ℚ) :
    ∀ y i, scaled_points_go (some 1) (some 1) x i y = unscaled_points_go x i y := by
  intro y
  induction y with
  | nil => intro i; rfl
  | cons v rest ih =>
    intro i
    rw [scaled_points_go, unscaled_points_go, ih]
    congr 1
    have hx : ((x.get? i).bind fun xv => (some (1:ℚ)).map fun f => f * xv) = x.get? i := by
      cases x.get? i with
      | none => rfl
      | some xv => simp
    have hy : ((some (1:ℚ)).map fun f => f * v) = some v := by simp
    rw [hx, hy]

/-- Scale factors 1 pass a series' data through unchanged. -/
theorem scaled_points_one (item : SeriesDescriptor) :
    scaled_points (some 1) (some 1) item = unscaled_points item :=
  scaled_points_go_one item.x item.y 0

/-- Every primitive a series produces carries that series' scaled dataset. -/
theorem processSeries_points (sfx sfy : Option ℚ) (item : SeriesDescriptor)
    (l : List Primitive) (h : processSeries sfx sfy item = .ok l) :
    ∀ p ∈ l, p.points = scaled_points sfx sfy item := by
  rw [processSeries] at h
  cases hps : parse_style (effective_style item.style) with
  | error e => rw [hps] at h; exact absurd h (by simp)
  | ok st =>
    rw [hps] at h
    have hl := Except.ok.inj h
    subst hl
    intro p hp
    rcases List.mem_append.mp hp with hp | hp
    · by_cases hline : st.line
      · rw [if_pos hline] at hp
        rw [List.mem_singleton.mp hp]
        rfl
      · rw [if_neg hline] at hp
        exact absurd hp (List.not_mem_nil p)
    · cases hsym : st.symbol with
      | none => rw [hsym] at hp; exact absurd hp (List.not_mem_nil p)
      | some sh =>
        rw [hsym] at hp
        rw [List.mem_singleton.mp hp]
        rfl

/-- Members of a successful `mapExcept` come from members of the input. -/
theorem mapExcept_ok_mem {ε α β : Type} (f : α → Except ε β) :
    ∀ (xs : List α) (ys : List β), mapExcept f xs = .ok ys →
      ∀ y ∈ ys, ∃ x ∈ xs, f x = .ok y := by
  intro xs
  induction xs with
  | nil =>
    intro ys h y hy
    rw [mapExcept] at h
    rw [← Except.ok.inj h] at hy
    exact absurd hy (List.not_mem_nil y)
  | cons a rest ih =>
    intro ys h y hy
    rw [mapExcept] at h
    cases hfa : f a with
    | error e => rw [hfa] at h; exact absurd h (by simp)
    | ok b =>
      rw [hfa] at h
      cases hrest : mapExcept f rest with
      | error e => rw [hrest] at h; exact absurd h (by simp)
      | ok bs =>
        rw [hrest] at h
        rw [← Except.ok.inj h] at hy
        rcases List.mem_cons.mp hy with rfl | hy
        · exact ⟨a, List.mem_cons_self a rest, hfa⟩
        · obtain ⟨x, hx, hfx⟩ := ih bs hrest y hy
          exact ⟨x, List.mem_cons_of_mem a hx, hfx⟩

/-- Mismatching base units abort a descriptor with the unit-mismatch
error. -/
theorem processDescr_mismatch (conv : Option String → Option String → Option ℚ)
    (u : Option String) (d : PlotDescr)
    (h : (split_unit d.xunit).unit ≠ (split_unit d.yunit).unit) :
    processDescr conv u d = .error .unitMismatch := by
  simp only [processDescr]
  rw [if_pos h]

/-- The unit a successful descriptor reports is the entering unit after one
default step. -/
theorem processDescr_ok_unit (conv : Option String → Option String → Option ℚ)
    (u : Option String) (d : PlotDescr) (u2 : Option String) (ps : List Primitive)
    (h : processDescr conv u d = .ok (u2, ps)) :
    u2 = unit_step u (split_unit d.xunit).unit := by
  simp only [processDescr] at h
  split at h
  · exact absurd h (by simp)
  · split at h
    · exact absurd h (by simp)
    · split at h
      · exact absurd h (by simp)
      · exact (congrArg Prod.fst (Except.ok.inj h)).symm

/-- A truthy unit is never replaced. -/
theorem truthy_unit_step (u b : Option String) (h : truthy u = true) :
    unit_step u b = u := by
  rw [unit_step, if_pos h]

/-- The descriptor loop splits over list concatenation. -/
theorem render_plot_append (conv : Option String → Option String → Option ℚ)
    (pre rest : List PlotDescr) :
    ∀ u0, render_plot conv (pre ++ rest) u0 =
      match render_plot conv pre u0 with
      | .error e => .error e
      | .ok (u, ps) =>
        match render_plot conv rest u with
        | .error e => .error e
        | .ok (uf, ps2) => .ok (uf, ps ++ ps2) := by
  induction pre with
  | nil =>
    intro u0
    simp only [List.nil_append, render_plot]
    cases render_plot conv rest u0 with
    | error e => rfl
    | ok r => obtain ⟨uf, ps2⟩ := r; rfl
  | cons d pre ih =>
    intro u0
    simp only [List.cons_append, render_plot]
    cases hd : processDescr conv u0 d with
    | error e => rfl
    | ok p =>
      obtain ⟨u1, ps⟩ := p
      dsimp only
      simp only [List.append_eq]
      rw [ih u1]
      cases hpre : render_plot conv pre u1 with
      | error e => rfl
      | ok q =>
        obtain ⟨u2, ps2⟩ := q
        dsimp only
        cases hrest : render_plot conv rest u2 with
        | error e => rfl
        | ok r =>
          obtain ⟨uf, ps3⟩ := r
          dsimp only
          rw [List.append_assoc]

/-- The unit a successful render call reports is the fold of the default
steps over the descriptors. -/
theorem render_plot_ok_unit (conv : Option String → Option String → Option ℚ)
    (ds : List PlotDescr) :
    ∀ u0 uf ps, render_plot conv ds u0 = .ok (uf, ps) → uf = unit_fold u0 ds := by
  induction ds with
  | nil =>
    intro u0 uf ps h
    exact (congrArg Prod.fst (Except.ok.inj h)).symm
  | cons d rest ih =>
    intro u0 uf ps h
    rw [render_plot] at h
    cases hd : processDescr conv u0 d with
    | error e => rw [hd] at h; exact absurd h (by simp)
    | ok p =>
      obtain ⟨u1, ps1⟩ := p
      rw [hd] at h
      dsimp only at h
      cases hrest : render_plot conv rest u1 with
      | error e => rw [hrest] at h; exact absurd h (by simp)
      | ok q =>
        obtain ⟨uf2, ps2⟩ := q
        rw [hrest] at h
        dsimp only at h
        have huf : uf = uf2 := (congrArg Prod.fst (Except.ok.inj h)).symm
        rw [huf, ih u1 uf2 ps2 hrest, unit_fold, unit_fold, List.foldl_cons,
          processDescr_ok_unit conv u0 d u1 ps1 hd]

/-- A truthy unit survives the whole fold. -/
theorem unit_fold_truthy (ds : List PlotDescr) :
    ∀ u0, truthy u0 = true → unit_fold u0 ds = u0 := by
  induction ds with
  | nil => intro u0 _; rfl
  | cons d rest ih =>
    intro u0 h
    rw [unit_fold, List.foldl_cons, truthy_unit_step _ _ h]
    exact ih u0 h

/-- One style character succeeds exactly when it is recognised. -/
theorem style_step_isSome (st : StyleState) (c : Char) :
    (style_step st c).isSome = recognized_style_char c := by
  rw [style_step, recognized_style_char]
  by_cases h : c = '-'
  · rw [if_pos h, h]
    rfl
  · rw [if_neg h]
    have hbeq : (c == '-') = false := by
      rw [beq_eq_false_iff_ne]
      exact h
    rw [hbeq]
    cases color_abbreviations c with
    | some col => rfl
    | none =>
      cases symbol_factories c with
      | some sh => rfl
      | none => rfl

/-- The style fold succeeds exactly when every character is recognised. -/
theorem foldlM_style_isSome (l : List Char) :
    ∀ st, (l.foldlM style_step st).isSome = true ↔
      ∀ c ∈ l, recognized_style_char c = true := by
  induction l with
  | nil =>
    intro st
    simp
  | cons c rest ih =>
    intro st
    rw [List.foldlM_cons]
    cases hstep : style_step st c with
    | none =>
      have hc : recognized_style_char c = false := by
        rw [← style_step_isSome st c, hstep]
        rfl
      simp only [Option.bind_eq_bind, Option.none_bind]
      constructor
      · intro h; exact absurd h (by simp)
      · intro h
        have := h c (List.mem_cons_self c rest)
        rw [hc] at this
        exact absurd this (by simp)
    | some st2 =>
      have hc : recognized_style_char c = true := by
        rw [← style_step_isSome st c, hstep]
        rfl
      simp only [Option.bind_eq_bind, Option.some_bind]
      rw [ih st2]
      constructor
      · intro h d hd
        rcases List.mem_cons.mp hd with rfl | hd
        · exact hc
        · exact h d hd
      · intro h d hd
        exact h d (List.mem_cons_of_mem c hd)

/-! ### Claims C7, C4 and C6: style-string handling -/

/-- Claim C7: style-string parsing fails — with the `StyleParseError` that
carries the style string — exactly when the string contains a character
that is not `-`, a recognised colour code or a recognised symbol code; a
string of recognised tokens only always parses. -/
theorem parse_style_error_iff (style : String) :
    (parse_style style = Except.error (RenderError.styleParse style) ↔
      ∃ c ∈ style.data, recognized_style_char c = false) ∧
    ((∀ c ∈ style.data, recognized_style_char c = true) →
      ∃ st, parse_style style = Except.ok st) := by
  have h := foldlM_style_isSome style.data ⟨false, none, none⟩
  cases hf : style.data.foldlM style_step ⟨false, none, none⟩ with
  | some st =>
    rw [hf] at h
    simp only [Option.isSome_some, true_iff] at h
    constructor
    · rw [parse_style, hf]
      constructor
      · intro hcontra; exact absurd hcontra (by simp)
      · rintro ⟨c, hc, hrec⟩
        rw [h c hc] at hrec
        exact absurd hrec (by simp)
    · intro _
      rw [parse_style, hf]
      exact ⟨st, rfl⟩
  | none =>
    rw [hf] at h
    simp only [Option.isSome_none, Bool.false_eq_true, false_iff] at h
    constructor
    · rw [parse_style, hf]
      constructor
      · intro _
        by_contra hno
        push_neg at hno
        refine h fun c hc => ?_
        have := hno c hc
        cases hrec : recognized_style_char c with
        | false => exact absurd hrec this
        | true => rfl
      · intro _; rfl
    · intro hall
      exact absurd hall h

/-- Claim C4, counterexample to the statement as given: a series styled
`"ko"` does not get a line primitive.  The style loop turns a line on only
for `-`; `"ko"` sets the colour black and the circle symbol, so the render
of such a series produces exactly one primitive, a black circle symbol,
and no line. -/
theorem style_ko_cex :
    render_plot convNone [dKo] none =
      .ok (none, [Primitive.symbol [(some 1, some 2)] "circle" (ColorSpec.fixed "black")]) ∧
    countLinePrims [Primitive.symbol [(some 1, some 2)] "circle" (ColorSpec.fixed "black")] = 0 := by
  constructor
  · simp [render_plot, processDescr, descr_scale_factors, unit_step, truthy, mapExcept,
      processSeries, parse_style, effective_style, style_step, color_abbreviations,
      symbol_factories, series_color, scaled_points, scaled_points_go, jsPow,
      split_unit, convNone, dKo, itemKo]
  · decide

/-- Claim C4 (amended): a series styled `"ko"` produces exactly one
primitive: a black circular symbol over its scaled dataset; no line
primitive is produced (a line additionally needs `-` in the style). -/
theorem style_ko_only_symbol (sfx sfy : Option ℚ) (item : SeriesDescriptor)
    (h : item.style = some "ko") :
    processSeries sfx sfy item =
      .ok [Primitive.symbol (scaled_points sfx sfy item) "circle" (ColorSpec.fixed "black")] := by
  obtain ⟨name, x, y, style⟩ := item
  dsimp only at h
  subst h
  rfl

/-- Claim C4 witness: the amended statement at `itemKo`, with the dataset
evaluated. -/
theorem style_ko_only_symbol_witness :
    processSeries (some 1) (some 1) itemKo =
      .ok [Primitive.symbol (scaled_points (some 1) (some 1) itemKo) "circle" (ColorSpec.fixed "black")] ∧
    scaled_points (some 1) (some 1) itemKo = [(some 1, some 2)] :=
  ⟨style_ko_only_symbol (some 1) (some 1) itemKo rfl,
   by simp [scaled_points, scaled_points_go, itemKo]⟩

/-- Claim C6, counterexample to the statement as given: a series with an
empty style string does not render without primitives.  The code replaces
a falsy style with the default `"k-"`, so such a series gets a black line
primitive. -/
theorem style_empty_cex :
    render_plot convNone [dEmpty] none =
      .ok (none, [Primitive.line [(some 1, some 2)] (ColorSpec.fixed "black")]) ∧
    countLinePrims [Primitive.line [(some 1, some 2)] (ColorSpec.fixed "black")] = 1 := by
  constructor
  · simp [render_plot, processDescr, descr_scale_factors, unit_step, truthy, mapExcept,
      processSeries, parse_style, effective_style, style_step, color_abbreviations,
      symbol_factories, series_color, scaled_points, scaled_points_go, jsPow,
      split_unit, convNone, dEmpty, itemEmpty]
  · decide

/-- Claim C6 (amended): a series whose style string is empty or absent
falls back to the default style `"k-"` and produces exactly one primitive,
a black line over its scaled dataset, and no symbol primitive. -/
theorem style_empty_default_line (sfx sfy : Option ℚ) (item : SeriesDescriptor)
    (h : item.style = none ∨ item.style = some "") :
    processSeries sfx sfy item =
      .ok [Primitive.line (scaled_points sfx sfy item) (ColorSpec.fixed "black")] := by
  obtain ⟨name, x, y, style⟩ := item
  dsimp only at h
  rcases h with h | h
  · subst h; rfl
  · subst h; rfl

/-- Claim C6 witness: the amended statement at `itemEmpty`, with the
dataset evaluated. -/
theorem style_empty_default_line_witness :
    processSeries (some 1) (some 1) itemEmpty =
      .ok [Primitive.line (scaled_points (some 1) (some 1) itemEmpty) (ColorSpec.fixed "black")] ∧
    scaled_points (some 1) (some 1) itemEmpty = [(some 1, some 2)] :=
  ⟨style_empty_default_line (some 1) (some 1) itemEmpty (Or.inr rfl),
   by simp [scaled_points, scaled_points_go, itemEmpty]⟩

/-! ### Claim C3: the unit-mismatch check -/

/-- Claim C3, counterexample to the statement as given: a descriptor with
mismatching base units does not always make the render fail with the
unit-mismatch error — an error thrown while processing an earlier
descriptor wins.  Here the first descriptor's series has the unrecognised
style `"z"`, so the render fails with the style error although the second
descriptor's base units (`m` versus `s`) differ. -/
theorem unit_mismatch_cex :
    render_plot convNone [dBadStyle, dMis] none = .error (RenderError.styleParse "z") ∧
    (split_unit dMis.xunit).unit ≠ (split_unit dMis.yunit).unit ∧
    RenderError.styleParse "z" ≠ RenderError.unitMismatch :=
  ⟨rfl, by decide, by decide⟩

/-- Claim C3 (amended): a descriptor with mismatching parsed base units
makes the render fail — so the render succeeds only when the base units
agree for every descriptor — and when every descriptor before it processed
without error the failure is the `UnitMismatchError` of the mismatch
check. -/
theorem unit_mismatch_fails (conv : Option String → Option String → Option ℚ)
    (pre : List PlotDescr) (d : PlotDescr) (post : List PlotDescr) (u0 : Option String)
    (hmis : (split_unit d.xunit).unit ≠ (split_unit d.yunit).unit) :
    (∃ e, render_plot conv (pre ++ d :: post) u0 = .error e) ∧
    (∀ u ps, render_plot conv pre u0 = .ok (u, ps) →
      render_plot conv (pre ++ d :: post) u0 = .error RenderError.unitMismatch) := by
  have hstep : ∀ u : Option String,
      render_plot conv (d :: post) u = .error RenderError.unitMismatch := by
    intro u
    simp only [render_plot]
    rw [processDescr_mismatch conv u d hmis]
  constructor
  · rw [render_plot_append conv pre (d :: post) u0]
    cases hpre : render_plot conv pre u0 with
    | error e => exact ⟨e, rfl⟩
    | ok p =>
      obtain ⟨u, ps⟩ := p
      refine ⟨RenderError.unitMismatch, ?_⟩
      dsimp only
      rw [hstep u]
  · intro u ps hpre
    rw [render_plot_append conv pre (d :: post) u0, hpre]
    dsimp only
    rw [hstep u]

/-- Claim C3 witness: a one-descriptor render with `m` versus `s` fails
with the unit-mismatch error. -/
theorem unit_mismatch_fails_witness :
    render_plot convNone [dMis] none = .error RenderError.unitMismatch :=
  (unit_mismatch_fails convNone [] dMis [] none (by decide)).2 none [] rfl

/-! ### Claim C9: display-unit resolution -/

/-- Claim C9, counterexample to the statement as given: with no target
unit, the display unit is not always the base unit of the first
descriptor's x-unit — a falsy first base unit is skipped and a later
descriptor sets the unit; and a caller-supplied empty target unit is
likewise overridden. -/
theorem unit_default_cex :
    render_plot convTwo [dNoUnit, dMm] none = .ok (some "mm", []) ∧
    (split_unit dNoUnit.xunit).unit = none ∧
    (some "mm" : Option String) ≠ none ∧
    render_plot convTwo [dEmptyUnit, dMm] (some "") = .ok (some "mm", []) ∧
    (some "mm" : Option String) ≠ some "" :=
  ⟨rfl, by decide, by decide, rfl, by decide⟩

/-- Claim C9 (amended): over a successful render call the display unit
evolves by the fold that keeps a truthy unit and otherwise replaces it by
the current descriptor's base x-unit — so it is the caller-supplied target
unit whenever that is truthy (non-empty), and otherwise the first truthy
base x-unit in descriptor order; once truthy it never changes. -/
theorem unit_resolution (conv : Option String → Option String → Option ℚ)
    (ds : List PlotDescr) (u0 uf : Option String) (ps : List Primitive)
    (h : render_plot conv ds u0 = .ok (uf, ps)) :
    uf = unit_fold u0 ds ∧ (truthy u0 = true → uf = u0) :=
  ⟨render_plot_ok_unit conv ds u0 uf ps h,
   fun ht => (render_plot_ok_unit conv ds u0 uf ps h).trans (unit_fold_truthy ds u0 ht)⟩

/-- Claim C9 witness: a render call with target unit `m` keeps `m`. -/
theorem unit_resolution_witness :
    (some "m" : Option String) = unit_fold (some "m") [dMm] ∧
    (truthy (some "m") = true → (some "m" : Option String) = some "m") :=
  unit_resolution convTwo [dMm] (some "m") (some "m") [] rfl

/-! ### Claims C10 and C1: pass-through and scaling of the data -/

/-- A successful descriptor passed the unit-mismatch check. -/
theorem processDescr_ok_units_match (conv : Option String → Option String → Option ℚ)
    (u : Option String) (d : PlotDescr) (r : Option String × List Primitive)
    (h : processDescr conv u d = .ok r) :
    (split_unit d.xunit).unit = (split_unit d.yunit).unit := by
  by_contra hne
  rw [processDescr_mismatch conv u d hne] at h
  exact absurd h (by simp)

/-- With matching base units and a falsy post-default unit, a descriptor
runs the series with scale factors 1. -/
theorem processDescr_falsy (conv : Option String → Option String → Option ℚ)
    (u : Option String) (d : PlotDescr)
    (hmatch : (split_unit d.xunit).unit = (split_unit d.yunit).unit)
    (hfalsy : truthy (unit_step u (split_unit d.xunit).unit) = false) :
    processDescr conv u d =
      match mapExcept (processSeries (some 1) (some 1)) d.series with
      | .error e => .error e
      | .ok pss => .ok (unit_step u (split_unit d.xunit).unit, pss.flatten) := by
  simp only [processDescr]
  rw [if_neg (not_not_intro hmatch), descr_scale_factors,
    if_neg (by rw [hfalsy]; exact Bool.false_ne_true)]

/-- The primitives of a descriptor processed under a falsy post-default
unit carry their series' data unchanged. -/
theorem processDescr_falsy_points (conv : Option String → Option String → Option ℚ)
    (u : Option String) (d : PlotDescr) (u2 : Option String) (ps : List Primitive)
    (h : processDescr conv u d = .ok (u2, ps)) (hfalsy : truthy u2 = false) :
    ∀ p ∈ ps, ∃ item ∈ d.series, p.points = unscaled_points item := by
  have hmatch := processDescr_ok_units_match conv u d (u2, ps) h
  have hu2 : u2 = unit_step u (split_unit d.xunit).unit :=
    processDescr_ok_unit conv u d u2 ps h
  rw [processDescr_falsy conv u d hmatch (hu2 ▸ hfalsy)] at h
  cases hm : mapExcept (processSeries (some 1) (some 1)) d.series with
  | error e => rw [hm] at h; exact absurd h (by simp)
  | ok pss =>
    rw [hm] at h
    dsimp only at h
    have hps : pss.flatten = ps := congrArg Prod.snd (Except.ok.inj h)
    intro p hp
    rw [← hps] at hp
    obtain ⟨l, hl, hpl⟩ := List.mem_flatten.mp hp
    obtain ⟨item, hitem, hfitem⟩ := mapExcept_ok_mem _ d.series pss hm l hl
    refine ⟨item, hitem, ?_⟩
    rw [processSeries_points (some 1) (some 1) item l hfitem p hpl,
      scaled_points_one item]

/-- Claim C10: when the resolved display unit of a successful render call
is absent or empty, every scale factor was 1 and every primitive's points
are the series' coordinates numerically unchanged. -/
theorem unscaled_render (conv : Option String → Option String → Option ℚ)
    (ds : List PlotDescr) :
    ∀ u0 uf ps, render_plot conv ds u0 = .ok (uf, ps) → truthy uf = false →
      ∀ p ∈ ps, ∃ d ∈ ds, ∃ item ∈ d.series, p.points = unscaled_points item := by
  induction ds with
  | nil =>
    intro u0 uf ps h _ p hp
    have hps : ([] : List Primitive) = ps := congrArg Prod.snd (Except.ok.inj h)
    rw [← hps] at hp
    exact absurd hp (List.not_mem_nil p)
  | cons d rest ih =>
    intro u0 uf ps h hfalsy p hp
    rw [render_plot] at h
    cases hd : processDescr conv u0 d with
    | error e => rw [hd] at h; exact absurd h (by simp)
    | ok pr =>
      obtain ⟨u1, ps1⟩ := pr
      rw [hd] at h
      dsimp only at h
      cases hrest : render_plot conv rest u1 with
      | error e => rw [hrest] at h; exact absurd h (by simp)
      | ok q =>
        obtain ⟨uf2, ps2⟩ := q
        rw [hrest] at h
        dsimp only at h
        have hpair := Except.ok.inj h
        have huf : uf2 = uf := congrArg Prod.fst hpair
        have hps : ps1 ++ ps2 = ps := congrArg Prod.snd hpair
        have hu1 : truthy u1 = false := by
          cases htru : truthy u1 with
          | false => rfl
          | true =>
            have hfold := render_plot_ok_unit conv rest u1 uf2 ps2 hrest
            rw [unit_fold_truthy rest u1 htru] at hfold
            rw [hfold] at huf
            rw [← huf] at hfalsy
            rw [htru] at hfalsy
            exact absurd hfalsy (by simp)
        rw [← hps] at hp
        rcases List.mem_append.mp hp with hp1 | hp2
        · obtain ⟨item, hitem, hpts⟩ :=
            processDescr_falsy_points conv u0 d u1 ps1 hd hu1 p hp1
          exact ⟨d, List.mem_cons_self d rest, item, hitem, hpts⟩
        · rw [huf] at hrest
          obtain ⟨d2, hd2, item, hitem, hpts⟩ := ih u1 uf ps2 hrest hfalsy p hp2
          exact ⟨d2, List.mem_cons_of_mem d hd2, item, hitem, hpts⟩

/-- Claim C10 witness: a unitless render call passes the single point
`(3, 5)` through unchanged. -/
theorem unscaled_render_witness :
    render_plot convNone [dLine] none =
      .ok (none, [Primitive.line [(some 3, some 5)] (ColorSpec.scale "a")]) ∧
    (Primitive.line [(some 3, some 5)] (ColorSpec.scale "a")).points =
      unscaled_points itemLine := by
  have hrender : render_plot convNone [dLine] none =
      .ok (none, [Primitive.line [(some 3, some 5)] (ColorSpec.scale "a")]) := by
    simp [render_plot, processDescr, descr_scale_factors, unit_step, truthy, mapExcept,
      processSeries, parse_style, effective_style, style_step, color_abbreviations,
      symbol_factories, series_color, scaled_points, scaled_points_go, jsPow,
      split_unit, convNone, dLine, itemLine]
  refine ⟨hrender, ?_⟩
  have h := unscaled_render convNone [dLine] none none
    [Primitive.line [(some 3, some 5)] (ColorSpec.scale "a")] hrender rfl
    (Primitive.line [(some 3, some 5)] (ColorSpec.scale "a")) (List.mem_singleton.mpr rfl)
  obtain ⟨d, hd, item, hitem, hpts⟩ := h
  rw [List.mem_singleton] at hd
  subst hd
  have hser : dLine.series = [itemLine] := rfl
  rw [hser, List.mem_singleton] at hitem
  subst hitem
  exact hpts

/-- Claim C1: a descriptor processed under a resolved (truthy) display
unit, with integer exponents and a conversion ratio `r` from its base unit
to that display unit, runs its series with x-scale factor `r ^ ex` and
y-scale factor `r ^ ey`, the two computed independently from the same
ratio — so every primitive it produces carries the series' dataset with
every x-coordinate multiplied by `r ^ ex` and every y-coordinate by
`r ^ ey`. -/
theorem descr_scaling (conv : Option String → Option String → Option ℚ)
    (u : Option String) (d : PlotDescr) (r : ℚ) (ex ey : Int)
    (htruthy : truthy u = true)
    (hx : (split_unit d.xunit).exponent = some ex)
    (hy : (split_unit d.yunit).exponent = some ey)
    (hmatch : (split_unit d.xunit).unit = (split_unit d.yunit).unit)
    (hr : conv (split_unit d.xunit).unit u = some r) :
    processDescr conv u d =
      (match mapExcept (processSeries (some (r ^ ex)) (some (r ^ ey))) d.series with
       | .error e => .error e
       | .ok pss => .ok (u, pss.flatten)) ∧
    ∀ ps, processDescr conv u d = .ok (u, ps) →
      ∀ p ∈ ps, ∃ item ∈ d.series,
        p.points = scaled_points (some (r ^ ex)) (some (r ^ ey)) item := by
  have heq : processDescr conv u d =
      (match mapExcept (processSeries (some (r ^ ex)) (some (r ^ ey))) d.series with
       | .error e => .error e
       | .ok pss => .ok (u, pss.flatten)) := by
    simp only [processDescr]
    rw [if_neg (not_not_intro hmatch), truthy_unit_step u (split_unit d.xunit).unit htruthy,
      descr_scale_factors, if_pos htruthy, hr, hx, hy]
    rfl
  refine ⟨heq, ?_⟩
  intro ps hps p hp
  rw [heq] at hps
  cases hm : mapExcept (processSeries (some (r ^ ex)) (some (r ^ ey))) d.series with
  | error e => rw [hm] at hps; exact absurd hps (by simp)
  | ok pss =>
    rw [hm] at hps
    dsimp only at hps
    have hflat : pss.flatten = ps := congrArg Prod.snd (Except.ok.inj hps)
    rw [← hflat] at hp
    obtain ⟨l, hl, hpl⟩ := List.mem_flatten.mp hp
    obtain ⟨item, hitem, hfitem⟩ := mapExcept_ok_mem _ d.series pss hm l hl
    exact ⟨item, hitem,
      processSeries_points (some (r ^ ex)) (some (r ^ ey)) item l hfitem p hpl⟩

/-- Claim C1 witness: a metre descriptor rendered with display unit `m`
and ratio 2 (so both exponents 1): the series pipeline runs with factors
`2 ^ 1`, and the single point `(3, 5)` comes out as `(6, 10)`. -/
theorem descr_scaling_witness :
    processDescr convTwo (some "m") dM =
      (match mapExcept (processSeries (some ((2:ℚ) ^ (1:Int))) (some ((2:ℚ) ^ (1:Int)))) dM.series with
       | .error e => .error e
       | .ok pss => .ok (some "m", pss.flatten)) ∧
    processDescr convTwo (some "m") dM =
      .ok (some "m", [Primitive.line [(some 6, some 10)] (ColorSpec.scale "a")]) := by
  refine ⟨(descr_scaling convTwo (some "m") dM 2 1 1 rfl (by decide) (by decide)
    (by decide) rfl).1, ?_⟩
  have h1 : split_unit (some "m") = ⟨some "m", some 1⟩ := by decide
  simp [processDescr, h1, descr_scale_factors, unit_step, truthy, mapExcept,
    processSeries, parse_style, effective_style, style_step, color_abbreviations,
    symbol_factories, series_color, scaled_points, scaled_points_go, jsPow,
    convTwo, dM, itemLine]
  norm_num

end Topobank
